import Mathlib

/-!
Verification of the adaptive security companion (`enhanced-ai-companion.py`).

This file gives a shallow embedding, in Lean 4, of the data model and the
operations of the Python program: the pattern manager (pattern admission and
similarity filtering), the n-gram pattern generator, the trigger analyzer
(ambient-event correlation windows and correlation counters), the
countermeasure manager (TTL bookkeeping, duplicate detection, expiry cleaning,
escalation, effectiveness metrics) and the threat scorer.

Modelling conventions:
* Python `float` time stamps and scores are modelled as exact rationals (`ℚ`);
  all the comparisons the claims depend on are far from float rounding.
* Python `dict` records become structures; keys the code reads through
  `dict.get` with a default (or guards with `in`) are modelled as `Option`
  fields.
* Python `dict` objects used as maps keyed by strings are modelled as
  association lists `List (String × _)`, with insertion-order-preserving
  update, mirroring iteration order of Python dicts.
* Python's stable `list.sort(key=...)` is modelled by a stable insertion
  sort on the same key.
* Functions are pure: mutation of `self` state becomes explicit state passing.
-/

/-! ## Small generic helpers: association lists with Python-dict semantics -/

/-- Lookup in an association list, first binding wins (Python dict lookup). -/
def alistGet {α : Type} : List (String × α) → String → Option α
  | [], _ => none
  | (k', v) :: t, k => if k' = k then some v else alistGet t k

/-- Assignment `d[k] = v` on a Python dict: replaces the value in place when
the key is present (keeping its position), appends a new binding otherwise. -/
def alistSet {α : Type} : List (String × α) → String → α → List (String × α)
  | [], k, v => [(k, v)]
  | (k', v') :: t, k, v =>
    if k' = k then (k', v) :: t else (k', v') :: alistSet t k v

/-- `defaultdict(int)` increment: `d[k] += 1` with default `0`. -/
def alistBump (d : List (String × Nat)) (k : String) : List (String × Nat) :=
  alistSet d k ((alistGet d k).getD 0 + 1)

/-- Python `lst[-n:]`: the last `n` elements of a list. -/
def lastSlice {α : Type} (n : Nat) (l : List α) : List α :=
  l.drop (l.length - n)

/-! ## Levenshtein distance and normalized similarity

The program imports `Levenshtein.distance` and ships an equivalent pure-Python
fallback ("Simple Levenshtein distance implementation as fallback", a
Wagner-Fischer row computation).  Both compute the standard Levenshtein edit
distance, embedded here by its standard recurrence. -/

/-- Levenshtein edit distance between two character lists; the function
computed by `levenshtein_distance` in the source (library import and the
in-file Wagner-Fischer fallback agree on it). -/
def levenshtein_distance : List Char → List Char → Nat
  | [], s2 => s2.length
  | c1 :: s1, [] => (c1 :: s1).length
  | c1 :: s1, c2 :: s2 =>
    if c1 = c2 then levenshtein_distance s1 s2
    else 1 + min (levenshtein_distance s1 (c2 :: s2))
            (min (levenshtein_distance (c1 :: s1) s2) (levenshtein_distance s1 s2))
termination_by s1 s2 => s1.length + s2.length
decreasing_by all_goals simp only [List.length_cons]; omega

theorem levenshtein_nil_left (s : List Char) : levenshtein_distance [] s = s.length := by
  cases s <;> simp [levenshtein_distance]

theorem levenshtein_nil_right (s : List Char) : levenshtein_distance s [] = s.length := by
  cases s <;> simp [levenshtein_distance]

theorem levenshtein_comm_aux :
    ∀ (n : Nat) (s1 s2 : List Char), s1.length + s2.length ≤ n →
      levenshtein_distance s1 s2 = levenshtein_distance s2 s1 := by
  intro n
  induction n with
  | zero =>
    intro s1 s2 h
    cases s1 <;> cases s2 <;> simp_all [levenshtein_nil_left, levenshtein_nil_right]
  | succ n ih =>
    intro s1 s2 h
    match s1, s2 with
    | [], s2 => rw [levenshtein_nil_left, levenshtein_nil_right]
    | c1 :: s1, [] => rw [levenshtein_nil_left, levenshtein_nil_right]
    | c1 :: s1, c2 :: s2 =>
      simp only [List.length_cons] at h
      by_cases hc : c1 = c2
      · subst hc
        simp only [levenshtein_distance, if_pos rfl]
        exact ih s1 s2 (by omega)
      · have hc' : ¬ c2 = c1 := fun e => hc e.symm
        simp only [levenshtein_distance, if_neg hc, if_neg hc']
        rw [ih s1 (c2 :: s2) (by simp only [List.length_cons]; omega),
          ih (c1 :: s1) s2 (by simp only [List.length_cons]; omega),
          ih s1 s2 (by omega)]
        rw [min_left_comm]

theorem levenshtein_comm (s1 s2 : List Char) :
    levenshtein_distance s1 s2 = levenshtein_distance s2 s1 :=
  levenshtein_comm_aux (s1.length + s2.length) s1 s2 (le_refl _)

/-- Normalized similarity `1 - distance/max(len, len)`, as computed in
`_is_too_similar`. -/
def similarity (a b : List Char) : ℚ :=
  1 - (levenshtein_distance a b : ℚ) / ((max a.length b.length : Nat) : ℚ)

theorem similarity_comm (a b : List Char) : similarity a b = similarity b a := by
  unfold similarity
  rw [levenshtein_comm, Nat.max_comm]

/-! ## PatternManager: admission of new patterns -/

/-- Characters stripped by `re.sub(r'[\.\*\+\?\[\]\(\)\{\}\|\^\$\\]', '', pattern)`. -/
def regexSyntaxChar (c : Char) : Bool :=
  c = '.' || c = '*' || c = '+' || c = '?' || c = '[' || c = ']' ||
  c = '(' || c = ')' || c = '\x7b' || c = '\x7d' || c = '|' || c = '^' ||
  c = '$' || c = '\\'

/-- The "pattern core": the pattern with regex syntax characters removed. -/
def patternCore (p : String) : List Char :=
  p.data.filter (fun c => ¬ regexSyntaxChar c)

/-- Python substring test at the head: `big.startswith(sub)` helper for `strIn`. -/
def chunkAt : List Char → List Char → Bool
  | [], _ => true
  | _ :: _, [] => false
  | c :: cs, d :: ds => c == d && chunkAt cs ds

/-- Python's `sub in big` substring containment on strings. -/
def strIn : List Char → List Char → Bool
  | sub, [] => chunkAt sub []
  | sub, b :: bs => chunkAt sub (b :: bs) || strIn sub bs

theorem strIn_nil_left (l : List Char) : strIn [] l = true := by
  cases l <;> simp [strIn, chunkAt]

theorem strIn_ne_nil_left {sub big : List Char} (h : strIn sub big = false) : sub ≠ [] := by
  intro e
  subst e
  rw [strIn_nil_left] at h
  simp at h

/-- `PatternManager._is_too_similar`: a candidate is rejected when its core is
shorter than `MIN_PATTERN_LENGTH`, or when, against some stored pattern,
either core contains the other, or the normalized similarity exceeds the
threshold. -/
def isTooSimilar (minLen : Nat) (thr : ℚ) (store : List String) (p : String) : Bool :=
  let core := patternCore p
  if core.length < minLen then true
  else store.any (fun q =>
    let qc := patternCore q
    (strIn core qc || strIn qc core) ||
    (decide (core ≠ []) && decide (qc ≠ []) && decide (similarity core qc > thr)))

/-- `PatternManager.add_patterns`: each candidate is skipped when already
stored or too similar to the patterns stored *before the call*; survivors are
appended.  Returns the new stored list. -/
def addPatterns (minLen : Nat) (thr : ℚ) (store : List String)
    (newPatterns : List String) : List String :=
  let uniq := newPatterns.foldl (fun acc p =>
    if p ∈ store then acc
    else if isTooSimilar minLen thr store p then acc
    else acc ++ [p]) []
  store ++ uniq

/-- The pattern-store invariant of the specification: no two stored patterns
have cores one of which is a substring of the other, and no two stored
patterns have normalized core similarity above the threshold. -/
def PatternsInv (thr : ℚ) (store : List String) : Prop :=
  ∀ a ∈ store, ∀ b ∈ store, a ≠ b →
    strIn (patternCore a) (patternCore b) = false ∧
    similarity (patternCore a) (patternCore b) ≤ thr

theorem isTooSimilar_false_spec {minLen : Nat} {thr : ℚ} {store : List String} {p : String}
    (h : isTooSimilar minLen thr store p = false) :
    ∀ q ∈ store,
      strIn (patternCore p) (patternCore q) = false ∧
      strIn (patternCore q) (patternCore p) = false ∧
      similarity (patternCore p) (patternCore q) ≤ thr ∧
      similarity (patternCore q) (patternCore p) ≤ thr := by
  intro q hq
  unfold isTooSimilar at h
  by_cases hlen : (patternCore p).length < minLen
  · simp [hlen] at h
  · simp only [hlen, if_false, List.any_eq_false] at h
    have hq' := h q hq
    simp only [Bool.not_eq_true, Bool.or_eq_false_iff] at hq'
    obtain ⟨⟨hpq, hqp⟩, h3⟩ := hq'
    have hpne : patternCore p ≠ [] := strIn_ne_nil_left hpq
    have hqne : patternCore q ≠ [] := strIn_ne_nil_left hqp
    have hsim : ¬ similarity (patternCore p) (patternCore q) > thr := by
      intro hgt
      rw [decide_eq_true hpne, decide_eq_true hqne, decide_eq_true hgt] at h3
      simp at h3
    refine ⟨hpq, hqp, le_of_not_lt hsim, ?_⟩
    rw [similarity_comm]
    exact le_of_not_lt hsim

theorem addPatterns_single_inv (minLen : Nat) (thr : ℚ) (store : List String) (p : String)
    (h : PatternsInv thr store) :
    PatternsInv thr (addPatterns minLen thr store [p]) := by
  unfold addPatterns
  simp only [List.foldl_cons, List.foldl_nil]
  by_cases hmem : p ∈ store
  · simpa [hmem] using h
  · by_cases hsim : isTooSimilar minLen thr store p
    · simpa [hmem, hsim] using h
    · have hspec := isTooSimilar_false_spec (show isTooSimilar minLen thr store p = false by
        cases e : isTooSimilar minLen thr store p
        · rfl
        · exact absurd e hsim)
      simp only [hmem, if_false, hsim, List.nil_append]
      intro a ha b hb hne
      rw [List.mem_append] at ha hb
      rcases ha with ha | ha <;> rcases hb with hb | hb
      · exact h a ha b hb hne
      · have hb' : b = p := by simpa using hb
        subst hb'
        obtain ⟨h1, h2, h3, h4⟩ := hspec a ha
        exact ⟨h2, h4⟩
      · have ha' : a = p := by simpa using ha
        subst ha'
        obtain ⟨h1, h2, h3, h4⟩ := hspec b hb
        exact ⟨h1, h3⟩
      · have ha' : a = p := by simpa using ha
        have hb' : b = p := by simpa using hb
        subst ha'; subst hb'
        exact absurd rfl hne

/-- Claim C3 (amended): starting from a pattern store satisfying the invariant,
any sequence of `add_patterns` calls that each add a single pattern preserves
it: all stored pattern cores stay pairwise non-substring-related and with
normalized similarity at most the threshold.  (The unamended claim, for calls
adding several patterns at once, is refuted by `C3_add_patterns_invariant_cex`:
candidates of one call are only checked against patterns stored before the
call, not against each other.) -/
theorem C3_add_patterns_singleton_preserves_invariant (minLen : Nat) (thr : ℚ)
    (store : List String) (h : PatternsInv thr store) (ps : List String) :
    PatternsInv thr (ps.foldl (fun s q => addPatterns minLen thr s [q]) store) := by
  induction ps generalizing store with
  | nil => exact h
  | cons q ps ih =>
    simp only [List.foldl_cons]
    exact ih _ (addPatterns_single_inv minLen thr store q h)

/-- Witness for C3: a concrete single-pattern admission sequence from the empty
store keeps the invariant. -/
theorem C3_add_patterns_singleton_preserves_invariant_witness :
    PatternsInv (3/4) ([".*KLMS.*", ".*Tracking.*"].foldl
      (fun s q => addPatterns 4 (3/4) s [q]) []) :=
  C3_add_patterns_singleton_preserves_invariant 4 (3/4) []
    (by simp [PatternsInv]) [".*KLMS.*", ".*Tracking.*"]

/-- Counterexample for C3 as stated: from the empty store (which satisfies the
invariant), a single `add_patterns` call with two mutually similar candidates
admits both — `AlphaBeta` is a substring of `AlphaBetaX` (and their normalized
similarity is 0.9 > 0.75), so the invariant is broken. -/
theorem C3_add_patterns_invariant_cex :
    PatternsInv (3/4) [] ∧
    addPatterns 4 (3/4) [] [".*AlphaBeta.*", ".*AlphaBetaX.*"] =
      [".*AlphaBeta.*", ".*AlphaBetaX.*"] ∧
    ¬ PatternsInv (3/4) [".*AlphaBeta.*", ".*AlphaBetaX.*"] := by
  refine ⟨by simp [PatternsInv], by decide, ?_⟩
  intro h
  have := h ".*AlphaBeta.*" (by decide) ".*AlphaBetaX.*" (by decide) (by decide)
  have hseg : strIn (patternCore ".*AlphaBeta.*") (patternCore ".*AlphaBetaX.*") = true := by
    decide
  rw [this.1] at hseg
  exact Bool.false_ne_true hseg

/-! ## PatternManager: n-gram candidate generation -/

/-- Characters escaped by Python 3.7+ `re.escape` (its special-characters map). -/
def reEscapeChar (c : Char) : Bool :=
  c = '(' || c = ')' || c = '[' || c = ']' || c = '\x7b' || c = '\x7d' ||
  c = '?' || c = '*' || c = '+' || c = '-' || c = '|' || c = '^' ||
  c = '$' || c = '\\' || c = '.' || c = '&' || c = '~' || c = '#' ||
  c = ' ' || c = '\t' || c = '\n' || c = '\r' || c = '\x0b' || c = '\x0c'

/-- Python `re.escape`: backslash-escape every special character. -/
def reEscape (s : String) : String :=
  ⟨s.data.foldr (fun c acc => if reEscapeChar c then '\\' :: c :: acc else c :: acc) []⟩

/-- `re.search(r'[a-zA-Z]', s)`: the string contains an ASCII letter. -/
def hasLetter (l : List Char) : Bool :=
  l.any Char.isAlpha

/-- Python `str.isdigit` restricted to ASCII content: nonempty and all digits. -/
def isDigitStr (l : List Char) : Bool :=
  decide (l ≠ []) && l.all Char.isDigit

/-- The n-grams one service contributes in
`PatternManager.generate_patterns_from_services`: for
`n in range(MIN_PATTERN_LENGTH, min(MAX_PATTERN_LENGTH, len(service) + 1))`
and every start `i`, the slice `service[i:i+n]`, skipped when it has no
letter or is all digits; services shorter than `MIN_PATTERN_LENGTH` are
skipped entirely.  Multiplicities are kept: the same n-gram contributes once
per occurrence. -/
def ngramsOfService (minLen maxLen : Nat) (s : String) : List (List Char) :=
  if s.data.length < minLen then []
  else (List.range' minLen (min maxLen (s.data.length + 1) - minLen)).flatMap (fun n =>
    (List.range (s.data.length - n + 1)).filterMap (fun i =>
      let sub := (s.data.drop i).take n
      if ¬ hasLetter sub || isDigitStr sub then none else some sub))

/-- All n-grams of all given services, concatenated (the `ngrams` list in the
source). -/
def genNgrams (minLen maxLen : Nat) (services : List String) : List (List Char) :=
  services.flatMap (ngramsOfService minLen maxLen)

/-- The distinct keys of `collections.Counter(l)` in first-occurrence order. -/
def keysInOrder (l : List (List Char)) : List (List Char) :=
  l.foldl (fun acc x => if x ∈ acc then acc else acc ++ [x]) []

/-- `PatternManager.generate_patterns_from_services`: with fewer than two
services the result is empty; otherwise every distinct n-gram whose total
occurrence count is at least 2 becomes the pattern `.*<escaped n-gram>.*`. -/
def generatePatternsFromServices (minLen maxLen : Nat) (services : List String) : List String :=
  if services.length < 2 then []
  else
    let ngrams := genNgrams minLen maxLen services
    let common := (keysInOrder ngrams).filter (fun g => ngrams.count g ≥ 2)
    common.map (fun g => ".*" ++ reEscape ⟨g⟩ ++ ".*")

set_option maxRecDepth 100000 in
/-- Claim C8, evaluation at the failing inputs.  First: the n-gram `abcd`
occurs twice inside the single subject `abcdXabcd` and in no other subject,
yet `.*abcd.*` is produced — the keep condition is total occurrence count,
not "appears in at least 2 distinct subjects" (contradicting the code's own
comment "Filter for n-grams that appear in multiple services").  Second: two
identical subjects of length 20 share their full 20-character n-gram, yet no
pattern for it is produced — `range(MIN, min(MAX, len+1))` excludes
`MAX_PATTERN_LENGTH = 20` itself, so generated n-grams stop at length 19. -/
theorem C8_generate_patterns_divergence :
    generatePatternsFromServices 4 20 ["abcdXabcd", "qqqq"] = [".*abcd.*"] ∧
    (["abcdXabcd", "qqqq"].filter (fun s => strIn "abcd".data s.data)).length = 1 ∧
    ".*ABCDEFGHIJKLMNOPQRST.*" ∉
      generatePatternsFromServices 4 20 ["ABCDEFGHIJKLMNOPQRST", "ABCDEFGHIJKLMNOPQRST"] := by
  refine ⟨by decide, by decide, by decide⟩

/-! ## ThreatScorer: per-service statistics and threat scores -/

/-- Per-service statistics kept by `ThreatScorer.update_service_stats`.
`patterns_matched` models the Python `set` as a duplicate-free list in
insertion order. -/
structure SStats where
  kill_count : Nat
  resurrection_count : Nat
  resurrection_times : List Int
  first_seen : ℚ
  last_seen : ℚ
  patterns_matched : List String
deriving DecidableEq, Repr

/-- `ThreatScorer.update_service_stats`: create a fresh zeroed entry when the
service is unknown, refresh `last_seen`, then bump the kill or resurrection
counter; resurrection times are appended and truncated to the last 20. -/
def updateServiceStats (m : List (String × SStats)) (service : String) (killed : Bool)
    (rtime : Option Int) (now : ℚ) : List (String × SStats) :=
  let m1 := match alistGet m service with
    | none => alistSet m service ⟨0, 0, [], now, now, []⟩
    | some _ => m
  match alistGet m1 service with
  | none => m1
  | some st =>
    let st1 := { st with last_seen := now }
    let st2 :=
      if killed then { st1 with kill_count := st1.kill_count + 1 }
      else
        let stR := { st1 with resurrection_count := st1.resurrection_count + 1 }
        match rtime with
        | none => stR
        | some t =>
          { stR with resurrection_times := lastSlice 20 (stR.resurrection_times ++ [t]) }
    alistSet m1 service st2

/-- `ThreatScorer.add_pattern_match`: for an unknown service, first create its
stats through `update_service_stats(service, killed=False)`, then add the
pattern to the service's matched-pattern set. -/
def addPatternMatch (m : List (String × SStats)) (service pattern : String)
    (now : ℚ) : List (String × SStats) :=
  let m1 := if alistGet m service = none then updateServiceStats m service false none now else m
  match alistGet m1 service with
  | none => m1
  | some st =>
    alistSet m1 service
      { st with patterns_matched :=
          if pattern ∈ st.patterns_matched then st.patterns_matched
          else st.patterns_matched ++ [pattern] }

/-- The score computed for one service in
`ThreatScorer.calculate_threat_scores`: base 0.5, resurrection-ratio bonus
capped at 0.3, resurrection-speed bonus, pattern-match bonus capped at 0.2,
clamped to [0, 1]. -/
def threatScore (st : SStats) : ℚ :=
  let base : ℚ := 1/2
  let s1 :=
    if 0 < st.kill_count then
      base + min (3/10) ((st.resurrection_count : ℚ) / (st.kill_count : ℚ) * (1/10))
    else base
  let s2 :=
    if st.resurrection_times = [] then s1
    else
      let avg : ℚ := ((st.resurrection_times.sum : Int) : ℚ) / (st.resurrection_times.length : ℚ)
      if avg < 10 then s1 + 3/20
      else if avg < 30 then s1 + 1/10
      else if avg < 60 then s1 + 1/20
      else s1
  let s3 := s2 + min (1/5) ((st.patterns_matched.length : ℚ) * (1/20))
  max 0 (min 1 s3)

/-- `ThreatScorer.calculate_threat_scores`: walk the service stats, skip
services last seen more than 7 days ago, store the clamped score for the
rest, and return the accumulated score map (entries from previous runs for
skipped services are retained). -/
def calcThreatScores (now : ℚ) (stats : List (String × SStats))
    (scores : List (String × ℚ)) : List (String × ℚ) :=
  stats.foldl (fun acc kv =>
    if now - kv.2.last_seen > 604800 then acc
    else alistSet acc kv.1 (threatScore kv.2)) scores

theorem alistGet_set_self {α : Type} (m : List (String × α)) (k : String) (v : α) :
    alistGet (alistSet m k v) k = some v := by
  induction m with
  | nil => simp [alistGet, alistSet]
  | cons kv t ih =>
    obtain ⟨k', v'⟩ := kv
    by_cases h : k' = k
    · simp [alistGet, alistSet, h]
    · simp [alistGet, alistSet, h, ih]

theorem alistGet_set_ne {α : Type} (m : List (String × α)) {k k' : String} (v : α)
    (h : k' ≠ k) : alistGet (alistSet m k' v) k = alistGet m k := by
  induction m with
  | nil => simp [alistGet, alistSet, h]
  | cons kv t ih =>
    obtain ⟨k0, v0⟩ := kv
    by_cases h0 : k0 = k'
    · subst h0
      simp [alistGet, alistSet, h]
    · simp only [alistSet, if_neg h0]
      by_cases h1 : k0 = k
      · simp [alistGet, h1]
      · simp [alistGet, h1, ih]

theorem alistSet_self_of_get {α : Type} {m : List (String × α)} {k : String} {v : α}
    (h : alistGet m k = some v) : alistSet m k v = m := by
  induction m with
  | nil => simp [alistGet] at h
  | cons kv t ih =>
    obtain ⟨k0, v0⟩ := kv
    by_cases h0 : k0 = k
    · simp only [alistGet, if_pos h0, Option.some.injEq] at h
      simp [alistSet, h0, h]
    · simp only [alistGet, if_neg h0] at h
      simp [alistSet, h0, ih h]

theorem mem_alistSet {α : Type} {m : List (String × α)} {k : String} {v : α} {x : String × α}
    (h : x ∈ alistSet m k v) : x = (k, v) ∨ x ∈ m := by
  induction m with
  | nil => simpa [alistSet] using h
  | cons kv t ih =>
    obtain ⟨k0, v0⟩ := kv
    by_cases h0 : k0 = k
    · subst h0
      rw [show alistSet ((k0, v0) :: t) k0 v = (k0, v) :: t by simp [alistSet]] at h
      rcases List.mem_cons.mp h with h | h
      · exact Or.inl h
      · exact Or.inr (List.mem_cons_of_mem _ h)
    · rw [show alistSet ((k0, v0) :: t) k v = (k0, v0) :: alistSet t k v by
        simp [alistSet, h0]] at h
      rcases List.mem_cons.mp h with h | h
      · exact Or.inr (by simp [h])
      · rcases ih h with h' | h'
        · exact Or.inl h'
        · exact Or.inr (List.mem_cons_of_mem _ h')

theorem threatScore_bounds (st : SStats) : 0 ≤ threatScore st ∧ threatScore st ≤ 1 := by
  unfold threatScore
  constructor
  · exact le_max_left 0 _
  · exact max_le (by norm_num) (min_le_left 1 _)

theorem calcThreatScores_bounded (now : ℚ) (stats : List (String × SStats))
    (scores : List (String × ℚ)) (hb : ∀ p ∈ scores, 0 ≤ p.2 ∧ p.2 ≤ 1) :
    ∀ p ∈ calcThreatScores now stats scores, 0 ≤ p.2 ∧ p.2 ≤ 1 := by
  induction stats generalizing scores with
  | nil => exact hb
  | cons kv t ih =>
    simp only [calcThreatScores, List.foldl_cons]
    by_cases hs : now - kv.2.last_seen > 604800
    · simp only [if_pos hs]
      exact ih _ hb
    · simp only [if_neg hs]
      refine ih _ ?_
      intro p hp
      rcases mem_alistSet hp with h | h
      · subst h
        exact threatScore_bounds kv.2
      · exact hb p h

theorem calcThreatScores_get_of_not_mem (now : ℚ) (stats : List (String × SStats))
    (scores : List (String × ℚ)) (k : String) (h : k ∉ stats.map Prod.fst) :
    alistGet (calcThreatScores now stats scores) k = alistGet scores k := by
  induction stats generalizing scores with
  | nil => rfl
  | cons kv t ih =>
    simp only [List.map_cons, List.mem_cons] at h
    push_neg at h
    simp only [calcThreatScores, List.foldl_cons]
    by_cases hs : now - kv.2.last_seen > 604800
    · simp only [if_pos hs]
      exact ih _ h.2
    · simp only [if_neg hs]
      rw [show (List.foldl (fun acc kv =>
          if now - kv.2.last_seen > 604800 then acc
          else alistSet acc kv.1 (threatScore kv.2)) (alistSet scores kv.1 (threatScore kv.2)) t) =
          calcThreatScores now t (alistSet scores kv.1 (threatScore kv.2)) from rfl]
      rw [ih _ h.2]
      exact alistGet_set_ne _ _ (fun e => h.1 e.symm)

theorem calcThreatScores_get_mem (now : ℚ) (stats : List (String × SStats))
    (scores : List (String × ℚ)) (k : String) (st : SStats)
    (hnd : (stats.map Prod.fst).Nodup) (hmem : (k, st) ∈ stats)
    (hfresh : ¬ now - st.last_seen > 604800) :
    alistGet (calcThreatScores now stats scores) k = some (threatScore st) := by
  induction stats generalizing scores with
  | nil => simp at hmem
  | cons kv t ih =>
    simp only [List.map_cons, List.nodup_cons] at hnd
    rcases List.mem_cons.mp hmem with h | h
    · have hk : kv.1 = k := by rw [← h]
      have hst : kv.2 = st := by rw [← h]
      subst hk; subst hst
      simp only [calcThreatScores, List.foldl_cons, if_neg hfresh]
      rw [show (List.foldl (fun acc kv =>
          if now - kv.2.last_seen > 604800 then acc
          else alistSet acc kv.1 (threatScore kv.2)) (alistSet scores kv.1 (threatScore kv.2)) t) =
          calcThreatScores now t (alistSet scores kv.1 (threatScore kv.2)) from rfl]
      rw [calcThreatScores_get_of_not_mem now t _ kv.1 hnd.1]
      exact alistGet_set_self _ _ _
    · simp only [calcThreatScores, List.foldl_cons]
      by_cases hs : now - kv.2.last_seen > 604800
      · simp only [if_pos hs]
        exact ih _ hnd.2 h
      · simp only [if_neg hs]
        exact ih _ hnd.2 h

theorem calcThreatScores_fixpoint (now : ℚ) (stats : List (String × SStats))
    (scores : List (String × ℚ))
    (h : ∀ kv ∈ stats, ¬ now - (kv : String × SStats).2.last_seen > 604800 →
      alistGet scores kv.1 = some (threatScore kv.2)) :
    calcThreatScores now stats scores = scores := by
  induction stats generalizing scores with
  | nil => rfl
  | cons kv t ih =>
    simp only [calcThreatScores, List.foldl_cons]
    by_cases hs : now - kv.2.last_seen > 604800
    · simp only [if_pos hs]
      exact ih _ (fun x hx => h x (List.mem_cons_of_mem _ hx))
    · simp only [if_neg hs]
      rw [alistSet_self_of_get (h kv (List.mem_cons_self _ _) hs)]
      exact ih _ (fun x hx => h x (List.mem_cons_of_mem _ hx))

/-- Claim C5: `calculate_threat_scores` is deterministic — running it a second
time over the same service stats at the same current time returns the
identical score map — and, provided the accumulated score map only holds
values in [0, 1] (true from the initial empty map onward), every score in the
returned map lies in [0, 1]. -/
theorem C5_calculate_threat_scores_deterministic_bounded
    (now : ℚ) (stats : List (String × SStats)) (prior : List (String × ℚ))
    (hnd : (stats.map Prod.fst).Nodup)
    (hb : ∀ p ∈ prior, 0 ≤ p.2 ∧ p.2 ≤ 1) :
    calcThreatScores now stats (calcThreatScores now stats prior) =
      calcThreatScores now stats prior ∧
    ∀ p ∈ calcThreatScores now stats prior, 0 ≤ p.2 ∧ p.2 ≤ 1 := by
  constructor
  · exact calcThreatScores_fixpoint now stats _ (fun kv hkv hfresh =>
      calcThreatScores_get_mem now stats prior kv.1 kv.2 hnd hkv hfresh)
  · exact calcThreatScores_bounded now stats prior hb

/-- Witness for C5 at a concrete store with one fresh service. -/
theorem C5_calculate_threat_scores_deterministic_bounded_witness :
    ([("svc", (⟨1, 2, [5], 0, 0, ["p"]⟩ : SStats))].map Prod.fst).Nodup ∧
    (calcThreatScores 0 [("svc", ⟨1, 2, [5], 0, 0, ["p"]⟩)]
        (calcThreatScores 0 [("svc", ⟨1, 2, [5], 0, 0, ["p"]⟩)] []) =
      calcThreatScores 0 [("svc", ⟨1, 2, [5], 0, 0, ["p"]⟩)] [] ∧
    ∀ p ∈ calcThreatScores 0 [("svc", ⟨1, 2, [5], 0, 0, ["p"]⟩)] [], 0 ≤ p.2 ∧ p.2 ≤ 1) :=
  ⟨by decide,
    C5_calculate_threat_scores_deterministic_bounded 0 _ [] (by decide) (by simp)⟩

/-- Claim C10: `add_pattern_match` on a subject with no stats entry first
creates the entry through `update_service_stats(service, killed=False)` —
leaving `kill_count = 0` but `resurrection_count = 1` although no resurrection
was observed — and only then records the pattern in the subject's
matched-pattern set. -/
theorem C10_add_pattern_match_fresh_subject
    (m : List (String × SStats)) (service pattern : String) (now : ℚ)
    (h : alistGet m service = none) :
    alistGet (addPatternMatch m service pattern now) service =
      some ⟨0, 1, [], now, now, [pattern]⟩ := by
  unfold addPatternMatch updateServiceStats
  simp [h, alistGet_set_self, lastSlice]

/-- Witness for C10 on the empty stats map. -/
theorem C10_add_pattern_match_fresh_subject_witness :
    alistGet ([] : List (String × SStats)) "svc" = none ∧
    alistGet (addPatternMatch [] "svc" ".*KLMS.*" 7) "svc" =
      some ⟨0, 1, [], 7, 7, [".*KLMS.*"]⟩ :=
  ⟨rfl, C10_add_pattern_match_fresh_subject [] "svc" ".*KLMS.*" 7 rfl⟩

/-! ## Stable sorting by a rational key

Python's `list.sort(key=...)` is stable; this insertion sort inserts each
element after already-placed elements with an equal or smaller key, which is
the same stable ascending order. -/

/-- Insert an element into an ascending-by-key sorted list, after equal keys. -/
def insByKey {α : Type} (key : α → ℚ) (a : α) : List α → List α
  | [] => [a]
  | b :: l => if key b ≤ key a then b :: insByKey key a l else a :: b :: l

/-- Stable ascending sort by a rational key (`triggers.sort(key=...)`). -/
def sortByKey {α : Type} (key : α → ℚ) (l : List α) : List α :=
  l.foldl (fun acc a => insByKey key a acc) []

/-- Insert for the descending variant (`sort(key=..., reverse=True)`). -/
def insByKeyDesc {α : Type} (key : α → ℚ) (a : α) : List α → List α
  | [] => [a]
  | b :: l => if key a ≤ key b then b :: insByKeyDesc key a l else a :: b :: l

/-- Stable descending sort by a rational key. -/
def sortByKeyDesc {α : Type} (key : α → ℚ) (l : List α) : List α :=
  l.foldl (fun acc a => insByKeyDesc key a acc) []

theorem mem_insByKey {α : Type} (key : α → ℚ) (a x : α) (l : List α) :
    x ∈ insByKey key a l ↔ x = a ∨ x ∈ l := by
  induction l with
  | nil => simp [insByKey]
  | cons b t ih =>
    by_cases h : key b ≤ key a
    · simp only [insByKey, if_pos h, List.mem_cons, ih]
      tauto
    · simp only [insByKey, if_neg h, List.mem_cons]

theorem mem_sortByKey {α : Type} (key : α → ℚ) (x : α) (l : List α) :
    x ∈ sortByKey key l ↔ x ∈ l := by
  have aux : ∀ (l acc : List α), x ∈ l.foldl (fun acc a => insByKey key a acc) acc ↔
      x ∈ acc ∨ x ∈ l := by
    intro l
    induction l with
    | nil => simp
    | cons b t ih =>
      intro acc
      simp only [List.foldl_cons, ih, mem_insByKey, List.mem_cons]
      tauto
  simpa using aux l []

theorem pairwise_insByKey {α : Type} (key : α → ℚ) (a : α) (l : List α)
    (h : l.Pairwise (fun x y => key x ≤ key y)) :
    (insByKey key a l).Pairwise (fun x y => key x ≤ key y) := by
  induction l with
  | nil => simp [insByKey]
  | cons b t ih =>
    rcases List.pairwise_cons.mp h with ⟨hb, ht⟩
    by_cases hle : key b ≤ key a
    · simp only [insByKey, if_pos hle]
      refine List.pairwise_cons.mpr ⟨?_, ih ht⟩
      intro x hx
      rcases (mem_insByKey key a x t).mp hx with h' | h'
      · subst h'
        exact hle
      · exact hb x h'
    · simp only [insByKey, if_neg hle]
      refine List.pairwise_cons.mpr ⟨?_, h⟩
      intro x hx
      rcases List.mem_cons.mp hx with h' | h'
      · subst h'
        exact le_of_lt (lt_of_not_le hle)
      · exact le_trans (le_of_lt (lt_of_not_le hle)) (hb x h')

theorem pairwise_sortByKey {α : Type} (key : α → ℚ) (l : List α) :
    (sortByKey key l).Pairwise (fun x y => key x ≤ key y) := by
  have aux : ∀ (l acc : List α), acc.Pairwise (fun x y => key x ≤ key y) →
      (l.foldl (fun acc a => insByKey key a acc) acc).Pairwise (fun x y => key x ≤ key y) := by
    intro l
    induction l with
    | nil => exact fun acc h => h
    | cons b t ih =>
      intro acc h
      exact ih _ (pairwise_insByKey key b acc h)
  exact aux l [] (by simp)

/-! ## TriggerAnalyzer: ambient events, correlation windows, counters -/

/-- An ambient system event recorded by `TriggerAnalyzer.record_event`:
a timestamp plus a string-keyed detail dict. -/
structure TEvent where
  timestamp : ℚ
  details : List (String × String)
deriving DecidableEq, Repr

/-- The six correlation windows of `TriggerAnalyzer` (each capped to the last
20 events by `record_event`; the cap plays no role in correlation checking). -/
structure TState where
  screen_state_changes : List TEvent
  network_changes : List TEvent
  usb_events : List TEvent
  bluetooth_events : List TEvent
  app_launches : List TEvent
  foreground_app_changes : List TEvent
deriving DecidableEq, Repr

/-- A trigger record emitted by `check_resurrection_triggers`; `ttype` models
the `"type"` key. -/
structure Trig where
  ttype : String
  service : String
  time_diff : ℚ
  details : List (String × String)
deriving DecidableEq, Repr

/-- One window's scan in `check_resurrection_triggers`: every event whose
timestamp is within 5.0 seconds of the resurrection time yields a trigger
carrying the absolute time difference and the event details. -/
def windowTriggers (service : String) (rt : ℚ) (tname : String)
    (evs : List TEvent) : List Trig :=
  evs.filterMap (fun e =>
    if |rt - e.timestamp| ≤ 5 then some ⟨tname, service, |rt - e.timestamp|, e.details⟩
    else none)

/-- The six windows in the order the source scans them, with their trigger
type names. -/
def windowList (st : TState) : List (String × List TEvent) :=
  [("screen_state_change", st.screen_state_changes),
   ("network_change", st.network_changes),
   ("usb_event", st.usb_events),
   ("bluetooth_event", st.bluetooth_events),
   ("app_launch", st.app_launches),
   ("foreground_app_change", st.foreground_app_changes)]

/-- `TriggerAnalyzer.check_resurrection_triggers`: collect the triggers of all
six windows, bump the persistent counter keyed `f"{service}_{trigger_type}"`
once per emitted trigger, and return the triggers sorted by ascending time
difference together with the updated counters. -/
def checkResurrectionTriggers (st : TState) (service : String) (rt : ℚ)
    (corr : List (String × Nat)) : List Trig × List (String × Nat) :=
  let blocks := (windowList st).flatMap (fun w => windowTriggers service rt w.1 w.2)
  let corr' := blocks.foldl (fun c t => alistBump c (service ++ "_" ++ t.ttype)) corr
  (sortByKey Trig.time_diff blocks, corr')

theorem mem_windowTriggers {service : String} {rt : ℚ} {tname : String}
    {evs : List TEvent} {t : Trig} :
    t ∈ windowTriggers service rt tname evs ↔
      ∃ e ∈ evs, |rt - e.timestamp| ≤ 5 ∧
        t = ⟨tname, service, |rt - e.timestamp|, e.details⟩ := by
  simp only [windowTriggers, List.mem_filterMap]
  constructor
  · rintro ⟨e, he, hfe⟩
    by_cases hc : |rt - e.timestamp| ≤ 5
    · rw [if_pos hc] at hfe
      exact ⟨e, he, hc, (Option.some.injEq _ _).mp hfe |>.symm⟩
    · rw [if_neg hc] at hfe
      cases hfe
  · rintro ⟨e, he, hc, ht⟩
    exact ⟨e, he, by rw [if_pos hc, ht]⟩

/-- Claim C9: for every ambient event stored in any of the six correlation
windows, `check_resurrection_triggers(subject, t)` emits a trigger for that
event exactly when the absolute difference between the event's timestamp and
`t` is at most 5.0 seconds, and the returned list is sorted by ascending time
difference. -/
theorem C9_check_resurrection_triggers_window (st : TState) (service : String) (rt : ℚ)
    (corr : List (String × Nat)) (name : String) (evs : List TEvent) (e : TEvent)
    (hw : (name, evs) ∈ windowList st) (he : e ∈ evs) :
    ((⟨name, service, |rt - e.timestamp|, e.details⟩ : Trig) ∈
        (checkResurrectionTriggers st service rt corr).1 ↔ |rt - e.timestamp| ≤ 5) ∧
    (checkResurrectionTriggers st service rt corr).1.Pairwise
      (fun a b => a.time_diff ≤ b.time_diff) := by
  constructor
  · rw [show (checkResurrectionTriggers st service rt corr).1 =
        sortByKey Trig.time_diff
          ((windowList st).flatMap (fun w => windowTriggers service rt w.1 w.2)) from rfl]
    rw [mem_sortByKey, List.mem_flatMap]
    constructor
    · rintro ⟨w, hw', hmem⟩
      rcases mem_windowTriggers.mp hmem with ⟨e', he', hc', ht⟩
      have : |rt - e.timestamp| = |rt - e'.timestamp| := congrArg Trig.time_diff ht
      rw [this]
      exact hc'
    · intro hc
      exact ⟨(name, evs), hw, mem_windowTriggers.mpr ⟨e, he, hc, rfl⟩⟩
  · exact pairwise_sortByKey _ _

/-- Witness for C9: a screen-state event recorded 2.0 s before the
resurrection is correlated (the spec's ≤ 5 s example). -/
theorem C9_check_resurrection_triggers_window_witness :
    ("screen_state_change", [(⟨98, [("state", "awake")]⟩ : TEvent)]) ∈
      windowList ⟨[⟨98, [("state", "awake")]⟩], [], [], [], [], []⟩ ∧
    (⟨98, [("state", "awake")]⟩ : TEvent) ∈ [(⟨98, [("state", "awake")]⟩ : TEvent)] ∧
    (((⟨"screen_state_change", "svc", |(100 : ℚ) - (98 : ℚ)|, [("state", "awake")]⟩ : Trig) ∈
        (checkResurrectionTriggers ⟨[⟨98, [("state", "awake")]⟩], [], [], [], [], []⟩
          "svc" 100 []).1 ↔ |(100 : ℚ) - (98 : ℚ)| ≤ 5) ∧
      (checkResurrectionTriggers ⟨[⟨98, [("state", "awake")]⟩], [], [], [], [], []⟩
          "svc" 100 []).1.Pairwise (fun a b => a.time_diff ≤ b.time_diff)) :=
  ⟨by decide, by decide,
    C9_check_resurrection_triggers_window _ "svc" 100 [] "screen_state_change"
      [⟨98, [("state", "awake")]⟩] ⟨98, [("state", "awake")]⟩ (by decide) (by decide)⟩

/-! ## TriggerAnalyzer: strong correlations -/

/-- Python `key.rsplit('_', 1)` on the raw character list: split around the
*last* underscore; `none` when no underscore occurs (where the source's
two-name unpacking would raise). -/
def rsplitUnderscoreData : List Char → Option (List Char × List Char)
  | [] => none
  | c :: rest =>
    match rsplitUnderscoreData rest with
    | some (a, b) => some (c :: a, b)
    | none => if c = '_' then some ([], rest) else none

/-- Python `key.rsplit('_', 1)` unpacked into `(service, trigger_type)`. -/
def rsplitUnderscore (s : String) : Option (String × String) :=
  (rsplitUnderscoreData s.data).map (fun ab => (⟨ab.1⟩, ⟨ab.2⟩))

/-- A strong-correlation record returned by `get_strong_correlations`. -/
structure Corr where
  service : String
  trigger_type : String
  count : Nat
  confidence : ℚ
deriving DecidableEq, Repr

/-- `TriggerAnalyzer.get_strong_correlations`: keep the counters with count at
least `min_count`, split each key on its *last* underscore into
`(service, trigger_type)`, attach `confidence = min(1, count/10)`, and sort by
descending confidence. -/
def getStrongCorrelations (corr : List (String × Nat)) (minCount : Nat) : List Corr :=
  let sc := corr.filterMap (fun kv =>
    if kv.2 ≥ minCount then
      match rsplitUnderscore kv.1 with
      | some sv => some ⟨sv.1, sv.2, kv.2, min 1 ((kv.2 : ℚ) / 10)⟩
      | none => none
    else none)
  sortByKeyDesc Corr.confidence sc

/-- Claim C1, evaluation at the failing input.  Three screen-state events at
the resurrection time bump the counter keyed `"svc_screen_state_change"` to 3;
`get_strong_correlations(min_count=3)` then reports the entry with
`service = "svc_screen_state"` and `trigger_type = "change"` — the
`key.rsplit('_', 1)` split happens at the *last* underscore although every
trigger type itself contains underscores, so neither the subject `"svc"` nor
the trigger type `"screen_state_change"` under which the counter was
incremented is returned. -/
theorem C1_get_strong_correlations_divergence :
    (checkResurrectionTriggers ⟨[⟨100, []⟩, ⟨100, []⟩, ⟨100, []⟩], [], [], [], [], []⟩
        "svc" 100 []).2 = [("svc_screen_state_change", 3)] ∧
    (getStrongCorrelations [("svc_screen_state_change", 3)] 3).map
        (fun c => (c.service, c.trigger_type, c.count)) =
      [("svc_screen_state", "change", 3)] ∧
    ((getStrongCorrelations [("svc_screen_state_change", 3)] 3).headD
        ⟨"", "", 0, 0⟩).confidence = 3/10 ∧
    ("svc_screen_state" ≠ "svc" ∧ "change" ≠ "screen_state_change") := by
  refine ⟨?_, by decide, ?_, by decide⟩
  · norm_num [checkResurrectionTriggers, windowList, windowTriggers, alistBump,
      alistGet, alistSet, List.filterMap]
    decide
  · have hsplit : rsplitUnderscore "svc_screen_state_change" =
        some ("svc_screen_state", "change") := by decide
    simp only [getStrongCorrelations, List.filterMap_cons, List.filterMap_nil, hsplit,
      ge_iff_le, le_refl, if_pos, sortByKeyDesc, List.foldl_cons, List.foldl_nil,
      insByKeyDesc, List.headD, List.head?]
    norm_num [min_def]

/-! ## MD5 (RFC 1321), used by `add_countermeasure` to mint countermeasure ids

The source computes `hashlib.md5(f"{cm_type}_{service}_{now}".encode())`.
Machine words are `Nat` taken modulo `2^32`. -/

/-- Truncate to a 32-bit word. -/
def m32 (x : Nat) : Nat := x % 4294967296

/-- 32-bit modular addition. -/
def madd (a b : Nat) : Nat := m32 (a + b)

/-- 32-bit bitwise complement. -/
def mnot (x : Nat) : Nat := 4294967295 - m32 x

/-- 32-bit left rotation. -/
def rotl (x n : Nat) : Nat := m32 (x * 2 ^ n) + (m32 x) / 2 ^ (32 - n)

/-- The MD5 sine-derived constant table `K`. -/
def md5K : List Nat := [
  3614090360, 3905402710, 606105819, 3250441966, 4118548399, 1200080426, 2821735955, 4249261313,
  1770035416, 2336552879, 4294925233, 2304563134, 1804603682, 4254626195, 2792965006, 1236535329,
  4129170786, 3225465664, 643717713, 3921069994, 3593408605, 38016083, 3634488961, 3889429448,
  568446438, 3275163606, 4107603335, 1163531501, 2850285829, 4243563512, 1735328473, 2368359562,
  4294588738, 2272392833, 1839030562, 4259657740, 2763975236, 1272893353, 4139469664, 3200236656,
  681279174, 3936430074, 3572445317, 76029189, 3654602809, 3873151461, 530742520, 3299628645,
  4096336452, 1126891415, 2878612391, 4237533241, 1700485571, 2399980690, 4293915773, 2240044497,
  1873313359, 4264355552, 2734768916, 1309151649, 4149444226, 3174756917, 718787259, 3951481745]

/-- The MD5 per-round shift table `s`. -/
def md5S : List Nat := [
  7, 12, 17, 22, 7, 12, 17, 22, 7, 12, 17, 22, 7, 12, 17, 22,
  5, 9, 14, 20, 5, 9, 14, 20, 5, 9, 14, 20, 5, 9, 14, 20,
  4, 11, 16, 23, 4, 11, 16, 23, 4, 11, 16, 23, 4, 11, 16, 23,
  6, 10, 15, 21, 6, 10, 15, 21, 6, 10, 15, 21, 6, 10, 15, 21]

/-- The MD5 message-word index for round `i`. -/
def md5g (i : Nat) : Nat :=
  if i < 16 then i
  else if i < 32 then (5 * i + 1) % 16
  else if i < 48 then (3 * i + 5) % 16
  else (7 * i) % 16

/-- The MD5 round function (F, G, H, I by quarter). -/
def md5f (i b c d : Nat) : Nat :=
  if i < 16 then (b &&& c) ||| (mnot b &&& d)
  else if i < 32 then (d &&& b) ||| (mnot d &&& c)
  else if i < 48 then b ^^^ c ^^^ d
  else c ^^^ (b ||| mnot d)

/-- `k` little-endian bytes of `n`. -/
def toLE : Nat → Nat → List Nat
  | 0, _ => []
  | k + 1, n => (n % 256) :: toLE k (n / 256)

/-- Group bytes into little-endian 32-bit words. -/
def leWords : List Nat → List Nat
  | b0 :: b1 :: b2 :: b3 :: rest => (b0 + b1 * 256 + b2 * 65536 + b3 * 16777216) :: leWords rest
  | _ => []

/-- MD5 padding: a `0x80` byte, zeros to 56 mod 64, and the 64-bit
little-endian bit length. -/
def md5pad (msg : List Nat) : List Nat :=
  msg ++ [128] ++ List.replicate ((119 - msg.length % 64) % 64) 0 ++
    toLE 8 ((msg.length * 8) % 18446744073709551616)

/-- Split a byte list into 64-byte blocks. -/
def chunks64 : List Nat → List (List Nat)
  | [] => []
  | x :: rest => ((x :: rest).take 64) :: chunks64 ((x :: rest).drop 64)
termination_by l => l.length
decreasing_by simp only [List.length_drop, List.length_cons]; omega

/-- One MD5 round on the state `(a, b, c, d)`. -/
def md5round (M : List Nat) (st : Nat × Nat × Nat × Nat) (i : Nat) : Nat × Nat × Nat × Nat :=
  let a := st.1
  let b := st.2.1
  let c := st.2.2.1
  let d := st.2.2.2
  let f := madd (madd (madd (md5f i b c d) a) (md5K.getD i 0)) (M.getD (md5g i) 0)
  (d, madd b (rotl f (md5S.getD i 0)), b, c)

/-- One 64-byte MD5 block. -/
def md5chunk (st : Nat × Nat × Nat × Nat) (block : List Nat) : Nat × Nat × Nat × Nat :=
  let M := leWords block
  let r := (List.range 64).foldl (md5round M) st
  (madd st.1 r.1, madd st.2.1 r.2.1, madd st.2.2.1 r.2.2.1, madd st.2.2.2 r.2.2.2)

/-- The 16 MD5 digest bytes of a byte message. -/
def md5bytes (msg : List Nat) : List Nat :=
  let st := (chunks64 (md5pad msg)).foldl md5chunk (1732584193, 4023233417, 2562383102, 271733878)
  toLE 4 st.1 ++ toLE 4 st.2.1 ++ toLE 4 st.2.2.1 ++ toLE 4 st.2.2.2

/-- Lower-case hex digit. -/
def hexDigit (n : Nat) : Char :=
  if n < 10 then Char.ofNat (48 + n) else Char.ofNat (87 + n)

/-- `hashlib.md5(s.encode()).hexdigest()` for ASCII strings (each character's
code point is its UTF-8 byte; all id-mint inputs are ASCII). -/
def md5hex (s : String) : String :=
  ⟨(md5bytes (s.data.map Char.toNat)).flatMap (fun b => [hexDigit (b / 16), hexDigit (b % 16)])⟩

/-- `hexdigest()[:8]` as used for countermeasure ids. -/
def md5hex8 (s : String) : String :=
  ⟨(md5hex s).data.take 8⟩

/-! ## CountermeasureManager: data model -/

/-- The `tracking` sub-dict of a countermeasure.  Note: the code never stores
a `created_at` key inside `tracking` (both `add_countermeasure` and
`update_effectiveness` create it with only the three other keys), which is why
the field is an `Option` that is `none` in every tracking dict the program
builds. -/
structure Tracking where
  resurrections_before : Nat
  resurrections_after : Nat
  last_checked : Option ℚ
  created_at : Option ℚ
deriving DecidableEq, Repr

/-- A countermeasure record.  `cmType` models the `"type"` key; keys the code
reads via `dict.get`/`in` are `Option` fields. -/
structure CM where
  cmType : String
  service : String
  interval : Option Int
  id : Option String
  created_at : Option ℚ
  expires_at : Option ℚ
  ttl : Option ℚ
  tracking : Option Tracking
  retry_count : Option Nat
  max_retries : Option Nat
  severity : Option ℚ
  components : Option (List String)
  description : Option String
deriving DecidableEq, Repr

/-- `CountermeasureManager._clean_expired_countermeasures`: drop entries whose
`expires_at` is in the past and entries whose `retry_count` reached
`max_retries` (each check only when the keys are present). -/
def cleanExpiredCountermeasures (now : ℚ) (cms : List CM) : List CM :=
  cms.filter (fun cm =>
    !(match cm.expires_at with
      | some e => decide (e < now)
      | none => false) &&
    !(match cm.retry_count, cm.max_retries with
      | some r, some m => decide (r ≥ m)
      | _, _ => false))

/-- `CountermeasureManager._save_countermeasures`: clean expired entries, then
persist; returns (in-memory list, persisted list) — both are the cleaned
list. -/
def saveCountermeasures (now : ℚ) (cms : List CM) : List CM × List CM :=
  let cleaned := cleanExpiredCountermeasures now cms
  (cleaned, cleaned)

/-- `CountermeasureManager._is_duplicate_countermeasure`: same type and
service, then a type-specific discriminator — `interval` for
`preemptive_kill`, nothing more for `app_launch_hook`/`screen_state_hook` —
and `False` for every other type. -/
def isDuplicateCountermeasure (cm1 cm2 : CM) : Bool :=
  if cm1.cmType ≠ cm2.cmType then false
  else if cm1.service ≠ cm2.service then false
  else if cm1.cmType = "preemptive_kill" then decide (cm1.interval = cm2.interval)
  else if cm1.cmType = "app_launch_hook" || cm1.cmType = "screen_state_hook" then true
  else false

/-- The id minted by `add_countermeasure`:
`f"{cm_type}_{service}_{md5(f"{cm_type}_{service}_{now}")[:8]}"`.  `nowStr` is
Python's string formatting of the float `now`. -/
def mintId (cmType service nowStr : String) : String :=
  cmType ++ "_" ++ service ++ "_" ++ md5hex8 (cmType ++ "_" ++ service ++ "_" ++ nowStr)

/-- The field mutations `add_countermeasure` performs on the incoming record
before the duplicate check: set `created_at`/`expires_at` from the TTL, add
default tracking, retry bookkeeping, and mint an id when absent.  Each of the
source's "set the key if absent" steps on an optional field is expressed as
wrapping the present-or-default value (`getD`) in `some`. -/
def prepCountermeasure (cm : CM) (now : ℚ) (nowStr : String) (cfgTTL : ℚ) : CM :=
  { cm with
    created_at := some now,
    expires_at := some (now + cm.ttl.getD cfgTTL),
    tracking := some (cm.tracking.getD ⟨0, 0, some now, none⟩),
    retry_count := some (cm.retry_count.getD 0),
    max_retries := some (cm.max_retries.getD 3),
    id := some (cm.id.getD (mintId cm.cmType cm.service nowStr)) }

/-- The duplicate path of `add_countermeasure`: the first existing duplicate
gets its `expires_at` extended to `now + ttl` and its `retry_count`
incremented. -/
def updateFirstDup (cms : List CM) (cm : CM) (newExpires : ℚ) : List CM :=
  match cms with
  | [] => []
  | x :: xs =>
    if isDuplicateCountermeasure x cm then
      { x with
        expires_at := some newExpires,
        retry_count := some (x.retry_count.getD 0 + 1) } :: xs
    else x :: updateFirstDup xs cm newExpires

/-- `CountermeasureManager.add_countermeasure`: prepare the record, update the
first duplicate if one exists (otherwise append), then save (which cleans).
Returns the in-memory list after the save. -/
def addCountermeasure (cms : List CM) (cm : CM) (now : ℚ) (nowStr : String)
    (cfgTTL : ℚ) : List CM :=
  let ttl := cm.ttl.getD cfgTTL
  let c := prepCountermeasure cm now nowStr cfgTTL
  if cms.any (fun x => isDuplicateCountermeasure x c) then
    (saveCountermeasures now (updateFirstDup cms c (now + ttl))).1
  else
    (saveCountermeasures now (cms ++ [c])).1

/-- The six hook countermeasure types escalated into a combined strategy. -/
def hookTypes : List String :=
  ["screen_state_hook", "app_launch_hook", "network_hook", "bluetooth_hook",
   "usb_hook", "foreground_app_hook"]

/-- `CountermeasureManager.escalate_countermeasure`: copy the record, drop the
id, halve the interval (preemptive kill) or switch to a combined strategy
(hook types), bump severity by 0.2 capped at 1.0, reset tracking, double the
TTL.  The original record is not modified. -/
def escalateCountermeasure (cm : CM) (now : ℚ) (cfgTTL : ℚ) : CM :=
  let e0 : CM := { cm with id := none }
  let e1 :=
    if cm.cmType = "preemptive_kill" then
      let ni : Int := max 1 (cm.interval.getD 30 / 2)
      { e0 with
        interval := some ni,
        description := some ("Escalated: Preemptively kill " ++ cm.service ++
          " every " ++ toString ni ++ " seconds") }
    else if cm.cmType ∈ hookTypes then
      { e0 with
        cmType := "combined_strategy",
        components := some [cm.cmType, "preemptive_kill"],
        interval := some 15,
        description := some ("Escalated: Combined strategy for " ++ cm.service ++
          " with 15s preemptive kills") }
    else e0
  { e1 with
    severity := some (min 1 (cm.severity.getD (1/2) + 1/5)),
    tracking := some ⟨0, 0, some now, none⟩,
    ttl := some (cfgTTL * 2) }

/-- Claim C6: immediately after any save of the countermeasure list, every
countermeasure whose `expires_at` is before the current time, and every
countermeasure whose `retry_count` reached `max_retries`, is absent from both
the in-memory and the persisted list. -/
theorem C6_save_prunes_expired (now : ℚ) (cms : List CM) (cm : CM)
    (h : cm ∈ (saveCountermeasures now cms).1 ∨ cm ∈ (saveCountermeasures now cms).2) :
    (∀ e, cm.expires_at = some e → ¬ e < now) ∧
    (∀ r m, cm.retry_count = some r → cm.max_retries = some m → r < m) := by
  have hmem : cm ∈ cleanExpiredCountermeasures now cms := by
    rcases h with h | h <;> exact h
  rw [cleanExpiredCountermeasures, List.mem_filter] at hmem
  have hp := hmem.2
  rw [Bool.and_eq_true, Bool.not_eq_true', Bool.not_eq_true'] at hp
  constructor
  · intro e he
    have := hp.1
    rw [he] at this
    simpa using this
  · intro r m hr hm
    have := hp.2
    rw [hr, hm] at this
    simpa using this

/-- A live countermeasure: expiry in the future, retries below the limit. -/
def c6good : CM :=
  ⟨"network_hook", "svc", none, some "id1", some 0, some 200, none, none,
    some 0, some 3, none, none, none⟩

/-- A countermeasure whose `expires_at` (50) is before the save time (100). -/
def c6expired : CM :=
  ⟨"network_hook", "svc2", none, some "id2", some 0, some 50, none, none,
    some 0, some 3, none, none, none⟩

/-- A countermeasure whose `retry_count` reached `max_retries`. -/
def c6maxed : CM :=
  ⟨"network_hook", "svc3", none, some "id3", some 0, some 200, none, none,
    some 3, some 3, none, none, none⟩

/-- Witness for C6: a concrete save at time 100 keeps only the live entry,
whose expiry provably lies in the future and whose retries are below the
limit. -/
theorem C6_save_prunes_expired_witness :
    (c6good ∈ (saveCountermeasures 100 [c6good, c6expired, c6maxed]).1 ∨
     c6good ∈ (saveCountermeasures 100 [c6good, c6expired, c6maxed]).2) ∧
    ((∀ e, c6good.expires_at = some e → ¬ e < 100) ∧
     (∀ r m, c6good.retry_count = some r → c6good.max_retries = some m → r < m)) :=
  ⟨Or.inl (by decide),
    C6_save_prunes_expired 100 [c6good, c6expired, c6maxed] c6good (Or.inl (by decide))⟩

/-! ## CountermeasureManager: duplicate handling (claim C4) -/

theorem length_cleanExpired_le (now : ℚ) (l : List CM) :
    (cleanExpiredCountermeasures now l).length ≤ l.length :=
  List.length_filter_le _ _

theorem cleanExpired_append (now : ℚ) (a b : List CM) :
    cleanExpiredCountermeasures now (a ++ b) =
      cleanExpiredCountermeasures now a ++ cleanExpiredCountermeasures now b :=
  List.filter_append _ _

theorem length_updateFirstDup (l : List CM) (cm : CM) (e : ℚ) :
    (updateFirstDup l cm e).length = l.length := by
  induction l with
  | nil => rfl
  | cons x xs ih =>
    unfold updateFirstDup
    by_cases h : isDuplicateCountermeasure x cm
    · simp [h]
    · simp [h, ih]

theorem mem_cleanExpired {now : ℚ} {l : List CM} {x : CM}
    (h : x ∈ cleanExpiredCountermeasures now l) : x ∈ l :=
  (List.mem_filter.mp h).1

theorem cleanExpired_singleton (now : ℚ) (c : CM) :
    cleanExpiredCountermeasures now [c] = [c] ∨
    cleanExpiredCountermeasures now [c] = [] := by
  unfold cleanExpiredCountermeasures
  rw [List.filter]
  by_cases h : (!(match c.expires_at with
      | some e => decide (e < now)
      | none => false) &&
    !(match c.retry_count, c.max_retries with
      | some r, some m => decide (r ≥ m)
      | _, _ => false)) = true
  · left
    rw [h]
    rfl
  · right
    rw [Bool.not_eq_true] at h
    rw [h]
    rfl

theorem cleanExpired_singleton_kept {now : ℚ} {c : CM}
    (h1 : ∀ e, c.expires_at = some e → ¬ e < now)
    (h2 : ∀ r m, c.retry_count = some r → c.max_retries = some m → r < m) :
    cleanExpiredCountermeasures now [c] = [c] := by
  unfold cleanExpiredCountermeasures
  rw [List.filter]
  have he : (match c.expires_at with
      | some e => decide (e < now)
      | none => false) = false := by
    cases hx : c.expires_at with
    | none => rfl
    | some e => simpa using h1 e hx
  have hr : (match c.retry_count, c.max_retries with
      | some r, some m => decide (r ≥ m)
      | _, _ => false) = false := by
    cases hx : c.retry_count with
    | none => rfl
    | some r =>
      cases hy : c.max_retries with
      | none => rfl
      | some m => simpa [Nat.not_le] using h2 r m hx hy
  rw [he, hr]
  rfl

theorem updateFirstDup_append_of_no_dup {l : List CM} {cm : CM} {e : ℚ}
    (h : ∀ x ∈ l, isDuplicateCountermeasure x cm = false) (rest : List CM) :
    updateFirstDup (l ++ rest) cm e = l ++ updateFirstDup rest cm e := by
  induction l with
  | nil => rfl
  | cons x xs ih =>
    have hx : isDuplicateCountermeasure x cm = false := h x (List.mem_cons_self _ _)
    have hstep : updateFirstDup ((x :: xs) ++ rest) cm e = x :: updateFirstDup (xs ++ rest) cm e := by
      rw [List.cons_append]
      unfold updateFirstDup
      rw [hx]
      simp
      rw [updateFirstDup.eq_def]
    rw [hstep, ih (fun y hy => h y (List.mem_cons_of_mem _ hy)), List.cons_append]

theorem addCountermeasure_length_le (s : List CM) (cm : CM) (now : ℚ)
    (nowStr : String) (tc : ℚ) :
    (addCountermeasure s cm now nowStr tc).length ≤ s.length + 1 := by
  unfold addCountermeasure saveCountermeasures
  by_cases h : (s.any fun x =>
      isDuplicateCountermeasure x (prepCountermeasure cm now nowStr tc)) = true
  · simp only [h, if_pos]
    calc (cleanExpiredCountermeasures now
          (updateFirstDup s (prepCountermeasure cm now nowStr tc) (now + cm.ttl.getD tc))).length
        ≤ (updateFirstDup s (prepCountermeasure cm now nowStr tc) (now + cm.ttl.getD tc)).length :=
          length_cleanExpired_le _ _
      _ = s.length := length_updateFirstDup _ _ _
      _ ≤ s.length + 1 := Nat.le_succ _
  · rw [Bool.not_eq_true] at h
    simp only [h, Bool.false_eq_true, if_false]
    calc (cleanExpiredCountermeasures now (s ++ [prepCountermeasure cm now nowStr tc])).length
        ≤ (s ++ [prepCountermeasure cm now nowStr tc]).length := length_cleanExpired_le _ _
      _ = s.length + 1 := by simp

theorem prep_cmType (cm : CM) (n : ℚ) (str : String) (tc : ℚ) :
    (prepCountermeasure cm n str tc).cmType = cm.cmType := rfl

theorem prep_service (cm : CM) (n : ℚ) (str : String) (tc : ℚ) :
    (prepCountermeasure cm n str tc).service = cm.service := rfl

theorem prep_interval (cm : CM) (n : ℚ) (str : String) (tc : ℚ) :
    (prepCountermeasure cm n str tc).interval = cm.interval := rfl

theorem isDup_prep_right (x cm : CM) (n : ℚ) (str : String) (tc : ℚ) :
    isDuplicateCountermeasure x (prepCountermeasure cm n str tc) =
      isDuplicateCountermeasure x cm := rfl

theorem isDup_prep_self {cm : CM}
    (h : cm.cmType = "preemptive_kill" ∨ cm.cmType = "app_launch_hook" ∨
      cm.cmType = "screen_state_hook")
    (n1 n2 tc1 tc2 : ℚ) (s1 s2 : String) :
    isDuplicateCountermeasure (prepCountermeasure cm n1 s1 tc1)
      (prepCountermeasure cm n2 s2 tc2) = true := by
  rw [isDup_prep_right]
  rcases h with h | h | h <;>
    simp [isDuplicateCountermeasure, prep_cmType, prep_service, prep_interval, h]

theorem isDup_false_of_other {x cm : CM}
    (h1 : cm.cmType ≠ "preemptive_kill") (h2 : cm.cmType ≠ "app_launch_hook")
    (h3 : cm.cmType ≠ "screen_state_hook") :
    isDuplicateCountermeasure x cm = false := by
  unfold isDuplicateCountermeasure
  by_cases he : x.cmType = cm.cmType
  · simp [he, h1, h2, h3]
  · simp [he]

theorem C4aux_growth (s : List CM) (cm : CM) (n1 n2 tc : ℚ) (s1 s2 : String)
    (htype : cm.cmType = "preemptive_kill" ∨ cm.cmType = "app_launch_hook" ∨
      cm.cmType = "screen_state_hook") :
    (addCountermeasure (addCountermeasure s cm n1 s1 tc) cm n2 s2 tc).length ≤
      s.length + 1 := by
  by_cases hA : (s.any fun x =>
      isDuplicateCountermeasure x (prepCountermeasure cm n1 s1 tc)) = true
  · have h1 : addCountermeasure s cm n1 s1 tc =
        cleanExpiredCountermeasures n1
          (updateFirstDup s (prepCountermeasure cm n1 s1 tc) (n1 + cm.ttl.getD tc)) := by
      unfold addCountermeasure saveCountermeasures
      simp [hA]
    have hlen1 : (addCountermeasure s cm n1 s1 tc).length ≤ s.length := by
      rw [h1]
      calc (cleanExpiredCountermeasures n1
            (updateFirstDup s (prepCountermeasure cm n1 s1 tc) (n1 + cm.ttl.getD tc))).length
          ≤ (updateFirstDup s (prepCountermeasure cm n1 s1 tc) (n1 + cm.ttl.getD tc)).length :=
            length_cleanExpired_le _ _
        _ = s.length := length_updateFirstDup _ _ _
    calc (addCountermeasure (addCountermeasure s cm n1 s1 tc) cm n2 s2 tc).length
        ≤ (addCountermeasure s cm n1 s1 tc).length + 1 := addCountermeasure_length_le _ _ _ _ _
      _ ≤ s.length + 1 := by omega
  · rw [Bool.not_eq_true] at hA
    have h1 : addCountermeasure s cm n1 s1 tc =
        cleanExpiredCountermeasures n1 s ++
          cleanExpiredCountermeasures n1 [prepCountermeasure cm n1 s1 tc] := by
      unfold addCountermeasure saveCountermeasures
      simp [hA, cleanExpired_append]
    rcases cleanExpired_singleton n1 (prepCountermeasure cm n1 s1 tc) with hk | hk
    · have h1' : addCountermeasure s cm n1 s1 tc =
          cleanExpiredCountermeasures n1 s ++ [prepCountermeasure cm n1 s1 tc] := by
        rw [h1, hk]
      have hany2 : ((cleanExpiredCountermeasures n1 s ++ [prepCountermeasure cm n1 s1 tc]).any
          fun x => isDuplicateCountermeasure x (prepCountermeasure cm n2 s2 tc)) = true := by
        rw [List.any_eq_true]
        exact ⟨prepCountermeasure cm n1 s1 tc, by simp,
          isDup_prep_self htype n1 n2 tc tc s1 s2⟩
      have h2 : addCountermeasure
            (cleanExpiredCountermeasures n1 s ++ [prepCountermeasure cm n1 s1 tc]) cm n2 s2 tc =
          cleanExpiredCountermeasures n2
            (updateFirstDup (cleanExpiredCountermeasures n1 s ++ [prepCountermeasure cm n1 s1 tc])
              (prepCountermeasure cm n2 s2 tc) (n2 + cm.ttl.getD tc)) := by
        unfold addCountermeasure saveCountermeasures
        simp [hany2]
      rw [h1', h2]
      calc (cleanExpiredCountermeasures n2
            (updateFirstDup (cleanExpiredCountermeasures n1 s ++ [prepCountermeasure cm n1 s1 tc])
              (prepCountermeasure cm n2 s2 tc) (n2 + cm.ttl.getD tc))).length
          ≤ (updateFirstDup (cleanExpiredCountermeasures n1 s ++ [prepCountermeasure cm n1 s1 tc])
              (prepCountermeasure cm n2 s2 tc) (n2 + cm.ttl.getD tc)).length :=
            length_cleanExpired_le _ _
        _ = (cleanExpiredCountermeasures n1 s).length + 1 := by
            rw [length_updateFirstDup]
            simp
        _ ≤ s.length + 1 := by
            have := length_cleanExpired_le n1 s
            omega
    · have h1' : addCountermeasure s cm n1 s1 tc = cleanExpiredCountermeasures n1 s := by
        rw [h1, hk, List.append_nil]
      calc (addCountermeasure (addCountermeasure s cm n1 s1 tc) cm n2 s2 tc).length
          ≤ (addCountermeasure s cm n1 s1 tc).length + 1 := addCountermeasure_length_le _ _ _ _ _
        _ = (cleanExpiredCountermeasures n1 s).length + 1 := by rw [h1']
        _ ≤ s.length + 1 := by
            have := length_cleanExpired_le n1 s
            omega

theorem C4aux_update (s : List CM) (cm : CM) (n1 n2 tc : ℚ) (s1 s2 : String)
    (htype : cm.cmType = "preemptive_kill" ∨ cm.cmType = "app_launch_hook" ∨
      cm.cmType = "screen_state_hook")
    (htc : 0 ≤ tc) (httl : cm.ttl = none) (hrc : cm.retry_count = none)
    (hmr : cm.max_retries = none)
    (hnodup : ∀ x ∈ s, isDuplicateCountermeasure x cm = false) :
    addCountermeasure (addCountermeasure s cm n1 s1 tc) cm n2 s2 tc =
      cleanExpiredCountermeasures n2 (cleanExpiredCountermeasures n1 s) ++
        [{ prepCountermeasure cm n1 s1 tc with
            expires_at := some (n2 + tc), retry_count := some 1 }] := by
  have hexp1 : (prepCountermeasure cm n1 s1 tc).expires_at = some (n1 + tc) := by
    simp [prepCountermeasure, httl]
  have hrc1 : (prepCountermeasure cm n1 s1 tc).retry_count = some 0 := by
    simp [prepCountermeasure, hrc]
  have hmr1 : (prepCountermeasure cm n1 s1 tc).max_retries = some 3 := by
    simp [prepCountermeasure, hmr]
  have hany1 : (s.any fun x =>
      isDuplicateCountermeasure x (prepCountermeasure cm n1 s1 tc)) = false := by
    rw [List.any_eq_false]
    intro x hx
    rw [isDup_prep_right]
    simp [hnodup x hx]
  have hkept1 : cleanExpiredCountermeasures n1 [prepCountermeasure cm n1 s1 tc] =
      [prepCountermeasure cm n1 s1 tc] := by
    refine cleanExpired_singleton_kept ?_ ?_
    · intro e he
      rw [hexp1] at he
      have : e = n1 + tc := by injection he with h'; exact h'.symm
      subst this
      linarith
    · intro r m hr hm
      rw [hrc1] at hr
      rw [hmr1] at hm
      injection hr with hr'
      injection hm with hm'
      omega
  have h1 : addCountermeasure s cm n1 s1 tc =
      cleanExpiredCountermeasures n1 s ++ [prepCountermeasure cm n1 s1 tc] := by
    unfold addCountermeasure saveCountermeasures
    simp [hany1, cleanExpired_append, hkept1]
  have hany2 : ((cleanExpiredCountermeasures n1 s ++ [prepCountermeasure cm n1 s1 tc]).any
      fun x => isDuplicateCountermeasure x (prepCountermeasure cm n2 s2 tc)) = true := by
    rw [List.any_eq_true]
    exact ⟨prepCountermeasure cm n1 s1 tc, by simp, isDup_prep_self htype n1 n2 tc tc s1 s2⟩
  have hupd : updateFirstDup
        (cleanExpiredCountermeasures n1 s ++ [prepCountermeasure cm n1 s1 tc])
        (prepCountermeasure cm n2 s2 tc) (n2 + cm.ttl.getD tc) =
      cleanExpiredCountermeasures n1 s ++
        [{ prepCountermeasure cm n1 s1 tc with
            expires_at := some (n2 + tc), retry_count := some 1 }] := by
    rw [updateFirstDup_append_of_no_dup (fun x hx => by
      rw [isDup_prep_right]
      exact hnodup x (mem_cleanExpired hx))]
    unfold updateFirstDup
    rw [isDup_prep_self htype n1 n2 tc tc s1 s2]
    simp only [if_pos, httl, Option.getD_none]
    rw [hrc1]
    rfl
  have hkept2 : cleanExpiredCountermeasures n2
      [{ prepCountermeasure cm n1 s1 tc with
          expires_at := some (n2 + tc), retry_count := some 1 }] =
      [{ prepCountermeasure cm n1 s1 tc with
          expires_at := some (n2 + tc), retry_count := some 1 }] := by
    refine cleanExpired_singleton_kept ?_ ?_
    · intro e he
      simp only at he
      have : e = n2 + tc := by injection he with h'; exact h'.symm
      subst this
      linarith
    · intro r m hr hm
      simp only at hr
      have hm' : ({ prepCountermeasure cm n1 s1 tc with
          expires_at := some (n2 + tc), retry_count := some 1 } : CM).max_retries = some 3 := hmr1
      rw [hm'] at hm
      injection hr with hr'
      injection hm with hm''
      omega
  have h2 : addCountermeasure
        (cleanExpiredCountermeasures n1 s ++ [prepCountermeasure cm n1 s1 tc]) cm n2 s2 tc =
      cleanExpiredCountermeasures n2 (cleanExpiredCountermeasures n1 s) ++
        [{ prepCountermeasure cm n1 s1 tc with
            expires_at := some (n2 + tc), retry_count := some 1 }] := by
    unfold addCountermeasure saveCountermeasures
    simp [hany2, hupd, cleanExpired_append, hkept2]
  rw [h1, h2]

theorem C4aux_other (s : List CM) (cm : CM) (n tc : ℚ) (str : String)
    (h1 : cm.cmType ≠ "preemptive_kill") (h2 : cm.cmType ≠ "app_launch_hook")
    (h3 : cm.cmType ≠ "screen_state_hook")
    (htc : 0 ≤ tc) (httl : cm.ttl = none) (hrc : cm.retry_count = none)
    (hmr : cm.max_retries = none) :
    (addCountermeasure s cm n str tc).length =
      (cleanExpiredCountermeasures n s).length + 1 := by
  have hany : (s.any fun x =>
      isDuplicateCountermeasure x (prepCountermeasure cm n str tc)) = false := by
    rw [List.any_eq_false]
    intro x hx
    rw [isDup_prep_right]
    simp [isDup_false_of_other h1 h2 h3]
  have hkept : cleanExpiredCountermeasures n [prepCountermeasure cm n str tc] =
      [prepCountermeasure cm n str tc] := by
    refine cleanExpired_singleton_kept ?_ ?_
    · intro e he
      rw [show (prepCountermeasure cm n str tc).expires_at = some (n + tc) by
        simp [prepCountermeasure, httl]] at he
      have : e = n + tc := by injection he with h'; exact h'.symm
      subst this
      linarith
    · intro r m hr hm
      rw [show (prepCountermeasure cm n str tc).retry_count = some 0 by
        simp [prepCountermeasure, hrc]] at hr
      rw [show (prepCountermeasure cm n str tc).max_retries = some 3 by
        simp [prepCountermeasure, hmr]] at hm
      injection hr with hr'
      injection hm with hm'
      omega
  unfold addCountermeasure saveCountermeasures
  simp [hany, cleanExpired_append, hkept]

/-- Claim C4 (amended): the duplicate-update behaviour only holds for the
types `_is_duplicate_countermeasure` recognises.  (1) For `preemptive_kill`
(same interval, as the same record is re-added), `app_launch_hook` and
`screen_state_hook`, adding the same countermeasure twice grows the list by
at most one entry in total; (2) in the fresh no-prior-duplicate case the
second call updates the existing entry in place — `expires_at` becomes
`now + ttl` of the second call and `retry_count` becomes 1 — instead of
inserting; (3) for every other countermeasure type the duplicate check never
matches, so a second `add_countermeasure` call always appends one more entry.
(The unamended claim quantified over *every* type and is refuted by
`C4_add_countermeasure_dedup_cex`.) -/
theorem C4_add_countermeasure_dedup_amended :
    (∀ (s : List CM) (cm : CM) (n1 n2 tc : ℚ) (s1 s2 : String),
      (cm.cmType = "preemptive_kill" ∨ cm.cmType = "app_launch_hook" ∨
        cm.cmType = "screen_state_hook") →
      (addCountermeasure (addCountermeasure s cm n1 s1 tc) cm n2 s2 tc).length ≤
        s.length + 1) ∧
    (∀ (s : List CM) (cm : CM) (n1 n2 tc : ℚ) (s1 s2 : String),
      (cm.cmType = "preemptive_kill" ∨ cm.cmType = "app_launch_hook" ∨
        cm.cmType = "screen_state_hook") →
      0 ≤ tc → cm.ttl = none → cm.retry_count = none → cm.max_retries = none →
      (∀ x ∈ s, isDuplicateCountermeasure x cm = false) →
      addCountermeasure (addCountermeasure s cm n1 s1 tc) cm n2 s2 tc =
        cleanExpiredCountermeasures n2 (cleanExpiredCountermeasures n1 s) ++
          [{ prepCountermeasure cm n1 s1 tc with
              expires_at := some (n2 + tc), retry_count := some 1 }]) ∧
    (∀ (s : List CM) (cm : CM) (n tc : ℚ) (str : String),
      cm.cmType ≠ "preemptive_kill" → cm.cmType ≠ "app_launch_hook" →
      cm.cmType ≠ "screen_state_hook" →
      0 ≤ tc → cm.ttl = none → cm.retry_count = none → cm.max_retries = none →
      (addCountermeasure s cm n str tc).length =
        (cleanExpiredCountermeasures n s).length + 1) :=
  ⟨fun s cm n1 n2 tc s1 s2 h => C4aux_growth s cm n1 n2 tc s1 s2 h,
   fun s cm n1 n2 tc s1 s2 h htc httl hrc hmr hnd =>
     C4aux_update s cm n1 n2 tc s1 s2 h htc httl hrc hmr hnd,
   fun s cm n tc str h1 h2 h3 htc httl hrc hmr =>
     C4aux_other s cm n tc str h1 h2 h3 htc httl hrc hmr⟩

/-- A countermeasure of a type outside the duplicate-detection cases
(`generate_countermeasures` produces such `network_hook` entries). -/
def c4net : CM :=
  ⟨"network_hook", "svc", none, none, none, none, none, none, none, none, none, none, none⟩

/-- A `preemptive_kill` countermeasure used in the C4 witness. -/
def c4pk : CM :=
  ⟨"preemptive_kill", "svc", some 30, none, none, none, none, none, none, none, none, none, none⟩

theorem c4net_prep_kept :
    cleanExpiredCountermeasures 0 [prepCountermeasure c4net 0 "0.0" 86400] =
      [prepCountermeasure c4net 0 "0.0" 86400] := by
  refine cleanExpired_singleton_kept ?_ ?_
  · intro e he
    rw [show (prepCountermeasure c4net 0 "0.0" 86400).expires_at =
      some ((0 : ℚ) + 86400) from rfl] at he
    injection he with h'
    rw [← h']
    norm_num
  · intro r m hr hm
    rw [show (prepCountermeasure c4net 0 "0.0" 86400).retry_count = some 0 from rfl] at hr
    rw [show (prepCountermeasure c4net 0 "0.0" 86400).max_retries = some 3 from rfl] at hm
    injection hr with hr'
    injection hm with hm'
    omega

/-- Counterexample for C4 as stated: the claim quantifies over *every*
countermeasure type, but `_is_duplicate_countermeasure` returns `False` for
types other than `preemptive_kill`, `app_launch_hook` and
`screen_state_hook`; adding the same `network_hook` countermeasure twice
inserts two entries (growth 2 > 1). -/
theorem C4_add_countermeasure_dedup_cex :
    (addCountermeasure (addCountermeasure [] c4net 0 "0.0" 86400) c4net 0 "0.0" 86400).length =
      2 := by
  have hfirst : addCountermeasure [] c4net 0 "0.0" 86400 =
      [prepCountermeasure c4net 0 "0.0" 86400] := by
    unfold addCountermeasure saveCountermeasures
    simp [c4net_prep_kept]
  rw [hfirst,
    C4aux_other [prepCountermeasure c4net 0 "0.0" 86400] c4net 0 86400 "0.0"
      (by decide) (by decide) (by decide) (by decide) rfl rfl rfl,
    c4net_prep_kept]
  rfl

/-- Witness for C4 (amended) at concrete inputs: a re-added `preemptive_kill`
grows the list by at most one and updates the stored entry in place, while a
re-added `network_hook` appends. -/
theorem C4_add_countermeasure_dedup_amended_witness :
    (0 : ℚ) ≤ 86400 ∧
    (addCountermeasure (addCountermeasure [] c4pk 0 "0.0" 86400) c4pk 5 "5.0" 86400).length ≤
      ([] : List CM).length + 1 ∧
    addCountermeasure (addCountermeasure [] c4pk 0 "0.0" 86400) c4pk 5 "5.0" 86400 =
      cleanExpiredCountermeasures 5 (cleanExpiredCountermeasures 0 []) ++
        [{ prepCountermeasure c4pk 0 "0.0" 86400 with
            expires_at := some ((5 : ℚ) + 86400), retry_count := some 1 }] ∧
    (addCountermeasure [] c4net 0 "0.0" 86400).length =
      (cleanExpiredCountermeasures 0 []).length + 1 :=
  ⟨by decide,
   C4_add_countermeasure_dedup_amended.1 [] c4pk 0 5 86400 "0.0" "5.0" (Or.inl rfl),
   C4_add_countermeasure_dedup_amended.2.1 [] c4pk 0 5 86400 "0.0" "5.0" (Or.inl rfl)
     (by decide) rfl rfl rfl (by simp),
   C4_add_countermeasure_dedup_amended.2.2 [] c4net 0 86400 "0.0"
     (by decide) (by decide) (by decide) (by decide) rfl rfl rfl⟩

/-! ## CountermeasureManager: escalation and minted ids (claim C7) -/

theorem string_append_ne_of_head {t1 t2 u1 u2 : String} {c d : Char}
    (h1 : t1.data.head? = some c) (h2 : t2.data.head? = some d) (hc : c ≠ d) :
    t1 ++ u1 ≠ t2 ++ u2 := by
  intro he
  have hd := congrArg String.data he
  rw [String.data_append, String.data_append] at hd
  cases e1 : t1.data with
  | nil => rw [e1] at h1; cases h1
  | cons x xs =>
    cases e2 : t2.data with
    | nil => rw [e2] at h2; cases h2
    | cons y ys =>
      rw [e1] at h1 hd
      rw [e2] at h2 hd
      injection h1 with h1'
      injection h2 with h2'
      rw [List.cons_append, List.cons_append] at hd
      injection hd with hd1 hd2
      exact hc (by rw [← h1', ← h2', hd1])

/-- The original countermeasure escalated in the C7 scenario. -/
def c7cm : CM :=
  ⟨"preemptive_kill", "svc", some 2, none, none, none, none, none, none, none, none, none, none⟩

/-- The list after admitting `c7cm` at time 100. -/
def c7s1 : List CM := addCountermeasure [] c7cm 100 "100.0" 86400

/-- The stored countermeasure (the list head). -/
def c7first : CM := c7s1.headD c7cm

/-- The list after escalating the stored countermeasure and admitting the
escalated record at the same timestamp. -/
def c7s2 : List CM :=
  addCountermeasure c7s1 (escalateCountermeasure c7first 100 86400) 100 "100.0" 86400

theorem c7_prep_kept :
    cleanExpiredCountermeasures 100 [prepCountermeasure c7cm 100 "100.0" 86400] =
      [prepCountermeasure c7cm 100 "100.0" 86400] := by
  refine cleanExpired_singleton_kept ?_ ?_
  · intro e he
    rw [show (prepCountermeasure c7cm 100 "100.0" 86400).expires_at =
      some ((100 : ℚ) + 86400) from rfl] at he
    injection he with h'
    rw [← h']
    norm_num
  · intro r m hr hm
    rw [show (prepCountermeasure c7cm 100 "100.0" 86400).retry_count = some 0 from rfl] at hr
    rw [show (prepCountermeasure c7cm 100 "100.0" 86400).max_retries = some 3 from rfl] at hm
    injection hr with hr'
    injection hm with hm'
    omega

theorem c7s1_eq : c7s1 = [prepCountermeasure c7cm 100 "100.0" 86400] := by
  rw [show c7s1 = addCountermeasure [] c7cm 100 "100.0" 86400 from rfl]
  unfold addCountermeasure saveCountermeasures
  simp [c7_prep_kept]

/-- Counterexample for C7 as stated: escalating the stored `preemptive_kill`
countermeasure and admitting the escalated record at the *same* timestamp
mints the identical id — `md5(f"{type}_{service}_{now}")` has the same input
for both admissions — so the escalated countermeasure does not carry an id
different from the original's. -/
theorem C7_escalate_same_id_cex :
    c7s2.length = 2 ∧
    (c7s2.headD c7cm).id = some (mintId "preemptive_kill" "svc" "100.0") ∧
    (c7s2.getD 1 c7cm).id = (c7s2.headD c7cm).id ∧
    ((c7s2.getD 1 c7cm).id).isSome = true := by
  have hfirst : c7first = prepCountermeasure c7cm 100 "100.0" 86400 := by
    rw [show c7first = c7s1.headD c7cm from rfl, c7s1_eq]
    rfl
  have hdup : isDuplicateCountermeasure (prepCountermeasure c7cm 100 "100.0" 86400)
      (prepCountermeasure
        (escalateCountermeasure (prepCountermeasure c7cm 100 "100.0" 86400) 100 86400)
        100 "100.0" 86400) = false := by
    decide
  have hesc2kept : cleanExpiredCountermeasures 100
      [prepCountermeasure
        (escalateCountermeasure (prepCountermeasure c7cm 100 "100.0" 86400) 100 86400)
        100 "100.0" 86400] =
      [prepCountermeasure
        (escalateCountermeasure (prepCountermeasure c7cm 100 "100.0" 86400) 100 86400)
        100 "100.0" 86400] := by
    refine cleanExpired_singleton_kept ?_ ?_
    · intro e he
      rw [show (prepCountermeasure
        (escalateCountermeasure (prepCountermeasure c7cm 100 "100.0" 86400) 100 86400)
        100 "100.0" 86400).expires_at = some ((100 : ℚ) + 86400 * 2) from rfl] at he
      injection he with h'
      rw [← h']
      norm_num
    · intro r m hr hm
      rw [show (prepCountermeasure
        (escalateCountermeasure (prepCountermeasure c7cm 100 "100.0" 86400) 100 86400)
        100 "100.0" 86400).retry_count = some 0 from rfl] at hr
      rw [show (prepCountermeasure
        (escalateCountermeasure (prepCountermeasure c7cm 100 "100.0" 86400) 100 86400)
        100 "100.0" 86400).max_retries = some 3 from rfl] at hm
      injection hr with hr'
      injection hm with hm'
      omega
  have h2 : c7s2 = [prepCountermeasure c7cm 100 "100.0" 86400,
      prepCountermeasure
        (escalateCountermeasure (prepCountermeasure c7cm 100 "100.0" 86400) 100 86400)
        100 "100.0" 86400] := by
    rw [show c7s2 = addCountermeasure c7s1 (escalateCountermeasure c7first 100 86400)
      100 "100.0" 86400 from rfl]
    rw [c7s1_eq, hfirst]
    unfold addCountermeasure saveCountermeasures
    simp only [List.any_cons, List.any_nil, hdup, Bool.or_false, Bool.false_eq_true, if_false]
    rw [show ([prepCountermeasure c7cm 100 "100.0" 86400] ++
      [prepCountermeasure
        (escalateCountermeasure (prepCountermeasure c7cm 100 "100.0" 86400) 100 86400)
        100 "100.0" 86400]) =
      [prepCountermeasure c7cm 100 "100.0" 86400] ++
      [prepCountermeasure
        (escalateCountermeasure (prepCountermeasure c7cm 100 "100.0" 86400) 100 86400)
        100 "100.0" 86400] from rfl]
    rw [cleanExpired_append, c7_prep_kept, hesc2kept]
    rfl
  refine ⟨by rw [h2]; rfl, by rw [h2]; rfl, by rw [h2]; rfl, by rw [h2]; rfl⟩

/-- Claim C7 (amended): `escalate_countermeasure` returns a copy with the id
*removed* and (being a pure copy) leaves the original record, including its
id, unchanged; a hook-type escalation switches the type to
`combined_strategy`; admission then mints
`f"{type}_{service}_{md5(...)[:8]}"` afresh.  When escalation changed the
type (every hook type), the minted id always differs from any id minted for
the original; for `preemptive_kill` the type is kept, and the minted id can
coincide with the original's when service and admission timestamp coincide
(`C7_escalate_same_id_cex`). -/
theorem C7_escalate_fresh_id_amended :
    (∀ (cm : CM) (now cfg : ℚ), (escalateCountermeasure cm now cfg).id = none) ∧
    (∀ (cm : CM) (now cfg : ℚ), cm.cmType ∈ hookTypes →
      (escalateCountermeasure cm now cfg).cmType = "combined_strategy") ∧
    (∀ (cm : CM) (n : ℚ) (str : String) (tc : ℚ), cm.id = none →
      (prepCountermeasure cm n str tc).id = some (mintId cm.cmType cm.service str)) ∧
    (∀ (svc a b t : String), t ∈ hookTypes →
      mintId "combined_strategy" svc a ≠ mintId t svc b) := by
  refine ⟨?_, ?_, ?_, ?_⟩
  · intro cm now cfg
    unfold escalateCountermeasure
    by_cases h1 : cm.cmType = "preemptive_kill" <;>
      by_cases h2 : cm.cmType ∈ hookTypes <;>
        simp [h1, h2]
  · intro cm now cfg hmem
    have h1 : cm.cmType ≠ "preemptive_kill" := by
      simp only [hookTypes, List.mem_cons, List.not_mem_nil, or_false] at hmem
      rcases hmem with h | h | h | h | h | h <;> simp [h]
    unfold escalateCountermeasure
    simp [h1, hmem]
  · intro cm n str tc h
    simp [prepCountermeasure, h]
  · intro svc a b t hmem
    simp only [hookTypes, List.mem_cons, List.not_mem_nil, or_false] at hmem
    rcases hmem with h | h | h | h | h | h <;>
      · subst h
        unfold mintId
        exact string_append_ne_of_head (c := 'c') rfl rfl (by decide)

/-- A hook-type countermeasure used in the C7 witness. -/
def c7hook : CM :=
  ⟨"screen_state_hook", "svc", none, some "screen_state_hook_svc_aaaaaaaa", none, none,
    none, none, none, none, none, none, none⟩

/-- Witness for C7 (amended) at concrete inputs. -/
theorem C7_escalate_fresh_id_amended_witness :
    (escalateCountermeasure c4pk 0 86400).id = none ∧
    "screen_state_hook" ∈ hookTypes ∧
    (escalateCountermeasure c7hook 0 86400).cmType = "combined_strategy" ∧
    (prepCountermeasure c4net 0 "0.0" 86400).id =
      some (mintId c4net.cmType c4net.service "0.0") ∧
    mintId "combined_strategy" "svc" "0.0" ≠ mintId "screen_state_hook" "svc" "0.0" :=
  ⟨C7_escalate_fresh_id_amended.1 c4pk 0 86400,
   by decide,
   C7_escalate_fresh_id_amended.2.1 c7hook 0 86400 (by decide),
   C7_escalate_fresh_id_amended.2.2.1 c4net 0 "0.0" 86400 rfl,
   C7_escalate_fresh_id_amended.2.2.2 "svc" "0.0" "0.0" "screen_state_hook" (by decide)⟩

/-! ## CountermeasureManager: effectiveness feedback (claim C2) -/

/-- `CountermeasureManager._calculate_effectiveness`.  `tnow` is the
`time.time()` used for the `dict.get` defaults: `created_at` is read *from
the tracking dict* with default now, `last_checked` likewise;
`time_before` is the assumed hour of prior history, and the reduction
`1 - rateAfter/rateBefore` is clamped to [0, 1] (0 when `rateBefore` is 0). -/
def calcEffectiveness (tr : Tracking) (tnow : ℚ) : ℚ :=
  let resurrectionsBefore : ℚ := max 1 (tr.resurrections_before : ℚ)
  let resurrectionsAfter : ℚ := (tr.resurrections_after : ℚ)
  let createdAt := tr.created_at.getD tnow
  let lastChecked := tr.last_checked.getD tnow
  let timeActive := lastChecked - createdAt
  let rateAfter := if timeActive > 0 then resurrectionsAfter / (timeActive / 3600) else 0
  let rateBefore := resurrectionsBefore / ((3600 : ℚ) / 3600)
  let reduction := if rateBefore > 0 then 1 - rateAfter / rateBefore else 0
  max 0 (min 1 reduction)

/-- Per-service effectiveness metrics
(`effectiveness_metrics["services"][service]`). -/
structure SvcMetrics where
  total_kills : Nat
  resurrections : Nat
  last_kill : ℚ
  last_resurrection : ℚ
deriving DecidableEq, Repr

/-- `CountermeasureManager.update_effectiveness`: returns the updated
countermeasure list, service metrics, and per-countermeasure effectiveness
map.  On a resurrection, each countermeasure of the service gets its tracking
baseline established (first time) or its `resurrections_after` incremented,
`last_checked` set to now, and — when a baseline exists — its effectiveness
recomputed and stored under its id. -/
def updateEffectiveness (cms : List CM) (svcM : List (String × SvcMetrics))
    (cmM : List (String × ℚ)) (service : String) (killed : Bool) (now : ℚ) :
    List CM × List (String × SvcMetrics) × List (String × ℚ) :=
  let sm := (alistGet svcM service).getD ⟨0, 0, 0, 0⟩
  if killed then
    (cms, alistSet svcM service { sm with total_kills := sm.total_kills + 1, last_kill := now },
      cmM)
  else
    let sm' := { sm with resurrections := sm.resurrections + 1, last_resurrection := now }
    let svcM' := alistSet svcM service sm'
    let r := cms.foldl (fun (acc : List CM × List (String × ℚ)) cm =>
      if cm.service = service then
        let tr := cm.tracking.getD ⟨0, 0, some (cm.created_at.getD now), none⟩
        let tr1 :=
          if tr.resurrections_before = 0 ∧ tr.resurrections_after = 0 then
            { tr with resurrections_before := sm'.resurrections }
          else
            { tr with resurrections_after := tr.resurrections_after + 1 }
        let tr2 := { tr1 with last_checked := some now }
        let cmM' :=
          if 0 < tr2.resurrections_before then
            alistSet acc.2 (cm.id.getD "unknown") (calcEffectiveness tr2 now)
          else acc.2
        (acc.1 ++ [{ cm with tracking := some tr2 }], cmM')
      else (acc.1 ++ [cm], acc.2)) ([], cmM)
    (r.1, svcM', r.2)

/-- `CountermeasureManager.get_ineffective_countermeasures`: countermeasures
active for at least 30 minutes (per `created_at` on the record and
`last_checked` in its tracking) whose stored effectiveness (default 0.0) is
below the threshold. -/
def getIneffectiveCountermeasures (cms : List CM) (cmM : List (String × ℚ))
    (threshold : ℚ) (tnow : ℚ) : List CM :=
  cms.filter (fun cm =>
    let eff := (alistGet cmM (cm.id.getD "unknown")).getD 0
    let createdAt := cm.created_at.getD tnow
    let lastChecked := match cm.tracking with
      | some tr => tr.last_checked.getD tnow
      | none => tnow
    if lastChecked - createdAt < 1800 then false
    else decide (eff < threshold))

/-- The tracking dict of the C2 scenario before the update: baseline 1
resurrection per assumed hour, one resurrection seen after. -/
def c2tr : Tracking := ⟨1, 1, some 3600, none⟩

/-- The C2 countermeasure: created at time 0, so active for 7200 s at the
check; baseline rate 1/h and after-rate 1/h (2 resurrections in 2 hours) —
the claim's "rate unchanged" scenario. -/
def c2cm : CM :=
  ⟨"preemptive_kill", "svc", some 30, some "cm1", some 0, some 86400, none, some c2tr,
    some 0, some 3, some (1/2), none, none⟩

/-- Claim C2, evaluation at the failing input.  The tracking dict never
contains `created_at` (it lives on the countermeasure record), so
`_calculate_effectiveness` defaults `created_at` to the current time,
`time_active` is 0, `rate_after` is 0 and the stored effectiveness is 1.0 —
although the spec formula on the same numbers (2 resurrections over the 2
active hours against a baseline of 1/h, i.e. an unchanged rate) gives 0, as
the second conjunct shows when `created_at` is supplied.  Consequently
`get_ineffective_countermeasures` returns the empty list and the
countermeasure is never escalated. -/
theorem C2_effectiveness_divergence :
    calcEffectiveness ⟨1, 2, some 7200, none⟩ 7200 = 1 ∧
    calcEffectiveness ⟨1, 2, some 7200, some 0⟩ 7200 = 0 ∧
    (updateEffectiveness [c2cm] [("svc", ⟨0, 5, 0, 0⟩)] [] "svc" false 7200).2.2 =
      [("cm1", 1)] ∧
    getIneffectiveCountermeasures
      (updateEffectiveness [c2cm] [("svc", ⟨0, 5, 0, 0⟩)] [] "svc" false 7200).1
      (updateEffectiveness [c2cm] [("svc", ⟨0, 5, 0, 0⟩)] [] "svc" false 7200).2.2
      (1/2) 7200 = [] := by
  have h1 : calcEffectiveness ⟨1, 2, some 7200, none⟩ 7200 = 1 := by
    norm_num [calcEffectiveness, min_def, max_def]
  have h2 : calcEffectiveness ⟨1, 2, some 7200, some 0⟩ 7200 = 0 := by
    norm_num [calcEffectiveness, min_def, max_def]
  have h3 : (updateEffectiveness [c2cm] [("svc", ⟨0, 5, 0, 0⟩)] [] "svc" false 7200).2.2 =
      [("cm1", 1)] := by
    unfold updateEffectiveness
    norm_num [c2cm, c2tr, alistGet, alistSet, h1]
  have h4 : (updateEffectiveness [c2cm] [("svc", ⟨0, 5, 0, 0⟩)] [] "svc" false 7200).1 =
      [{ c2cm with tracking := some ⟨1, 2, some 7200, none⟩ }] := by
    unfold updateEffectiveness
    norm_num [c2cm, c2tr, alistGet, alistSet]
  refine ⟨h1, h2, h3, ?_⟩
  rw [h3, h4]
  unfold getIneffectiveCountermeasures
  norm_num [c2cm, alistGet]
